import Mathlib

/-
  Verification development for the Lodestone core orchestration runtime
  (`src/lib.rs`): instance restoration, auto-start, port seeding, the
  event-history buffering loop, the periodic monitor loop, and the
  race-and-cleanup shutdown path of `run()`.

  Machine integers are modelled as `Nat`, UUIDs as `String`, Rust
  `HashMap` as an association list with replace-on-insert, and the
  `AllocRingBuffer` as a capacity-bounded list evicting the oldest entry.
  Code paths that panic (`unwrap`, `unimplemented!`) are modelled with
  `Except`.
-/

set_option autoImplicit false

namespace Lodestone

/-- Instance identifiers (`InstanceUuid` in `types`): opaque strings. -/
abbrev InstanceUuid := String

/-! ### Association-list model of `HashMap` -/

/-- Lookup in an association list: first entry with the given key
(models `HashMap::get`). -/
def lookupMap {β : Type} : List (InstanceUuid × β) → InstanceUuid → Option β
  | [], _ => none
  | e :: rest, k => if e.1 = k then some e.2 else lookupMap rest k

/-- Keys of an association list (models the key set of a `HashMap`). -/
def keysOf {β : Type} (m : List (InstanceUuid × β)) : List InstanceUuid :=
  m.map Prod.fst

/-- Insert into an association list, replacing the value when the key is
already present (models `HashMap::insert`). -/
def insertMap {β : Type} : List (InstanceUuid × β) → InstanceUuid → β →
    List (InstanceUuid × β)
  | [], k, v => [(k, v)]
  | e :: rest, k, v =>
    if e.1 = k then (k, v) :: rest else e :: insertMap rest k v

/-! ### Ring buffers

`AllocRingBuffer::with_capacity(c)` then `push`: once `c` entries are
held, pushing evicts the oldest entry. -/

/-- Capacity-bounded FIFO buffer, oldest entry first in `data`. -/
structure RingBuf (α : Type) where
  capacity : Nat
  data : List α
  deriving Repr, DecidableEq

/-- Fresh ring buffer of the given capacity (`AllocRingBuffer::with_capacity`). -/
def RingBuf.withCapacity (α : Type) (c : Nat) : RingBuf α := ⟨c, []⟩

/-- Push one element, evicting the oldest when the buffer is at capacity
(`RingBufferWrite::push`). -/
def RingBuf.push {α : Type} (b : RingBuf α) (x : α) : RingBuf α :=
  let d := b.data ++ [x]
  { b with data := if b.capacity < d.length then d.drop (d.length - b.capacity) else d }

/-! ### Instance configuration and the `GameInstance` handle -/

/-- ASCII lowercasing, as `str::to_ascii_lowercase` (Lean's `Char.toLower`
also only maps `A`-`Z`). -/
def asciiLower (s : String) : String := ⟨s.data.map Char.toLower⟩

/-- Shallow model of the parsed `.lodestone_config` JSON `Value` together
with the runtime behaviour of the instance restored from it.

Fields read by `restore_instances`:
`game_type` is `config["game_type"].as_str()` (`none` when the key is
absent or not a string); `name` is `config["name"].as_str()`;
`typed_deser_ok` records whether `serde_json::from_value::<RestoreConfig>`
succeeds; `uuid`, `port`, `auto_start` are the persisted fields the §4.4
capability contract exposes through `uuid()`, `port()`, `auto_start()`.

`start_ok` and `stop_ok` are oracle fields for the opaque runtime outcome
of the `start`/`stop` contract calls on the restored instance — they are
not persisted data, only a deterministic stand-in for process behaviour. -/
structure ConfigJson where
  game_type : Option String
  name : Option String
  typed_deser_ok : Bool
  uuid : InstanceUuid
  port : Nat
  auto_start : Bool
  start_ok : Bool
  stop_ok : Bool
  deriving Repr, DecidableEq

/-- Model of the polymorphic `GameInstance` handle: the accessors of the
§4.4 capability contract, plus the behaviour oracles. -/
structure GameInstance where
  uuid : InstanceUuid
  name : String
  port : Nat
  auto_start : Bool
  start_ok : Bool
  stop_ok : Bool
  deriving Repr, DecidableEq

/-- Modelled from the spec: `MinecraftInstance::restore(config, ...)` is not
under `src/`; per §4.4 it is a static factory reconstructing the instance
handle from its typed configuration, whose accessors (`uuid()`, `name()`,
`port()`, `auto_start()`) return the persisted values (§3: the InstanceId is
assigned at restoration and immutable). -/
def MinecraftInstance.restore (cfg : ConfigJson) : GameInstance :=
  { uuid := cfg.uuid
    name := cfg.name.getD ""
    port := cfg.port
    auto_start := cfg.auto_start
    start_ok := cfg.start_ok
    stop_ok := cfg.stop_ok }

/-- The instance registry: `HashMap<InstanceUuid, GameInstance>`. -/
abbrev RegMap := List (InstanceUuid × GameInstance)

/-! ### `restore_instances` -/

/-- One immediate subdirectory of the `instances` directory, as
`restore_instances` observes it: `has_marker` is
`path.join(".lodestone_config").is_file()`; `parsed` is the result of
`serde_json::from_reader` on that marker file (`none` = JSON parse
failure, which the source `unwrap`s). -/
structure InstanceDir where
  has_marker : Bool
  parsed : Option ConfigJson
  deriving Repr, DecidableEq

/-- The panic points of `restore_instances`, in source order within one
directory: `jsonParse` (`serde_json::from_reader(..).unwrap()`),
`gameTypeMissing` (`config["game_type"].as_str().unwrap()`),
`unimplementedGameType` (the `_ => unimplemented!()` arm),
`nameMissing` (`config["name"].as_str().unwrap()` in the debug log),
`typedDeser` (`serde_json::from_value(config).unwrap()`). -/
inductive RestorePanic where
  | jsonParse
  | gameTypeMissing
  | unimplementedGameType
  | nameMissing
  | typedDeser
  deriving Repr, DecidableEq

/-- Per-directory body of the lazy iterator chain in `restore_instances`
(the two `map` closures): parse the marker file, read the `game_type`
discriminator, dispatch to the variant factory. Each `unwrap` /
`unimplemented!` is an `Except.error`. -/
def restoreOne (d : InstanceDir) : Except RestorePanic GameInstance :=
  match d.parsed with
  | none => .error .jsonParse
  | some cfg =>
    match cfg.game_type with
    | none => .error .gameTypeMissing
    | some gt =>
      if asciiLower gt = "minecraft" then
        match cfg.name with
        | none => .error .nameMissing
        | some _ =>
          if cfg.typed_deser_ok then .ok (MinecraftInstance.restore cfg)
          else .error .typedDeser
      else .error .unimplementedGameType

/-- The `for` loop of `restore_instances` over the filtered directory
iterator: restore each directory in turn (the iterator is lazy, so the
parse/dispatch work for a directory happens only when the loop reaches it)
and insert into the accumulator keyed by `instance.uuid().await`. A panic
stops the pass before any later directory is touched. -/
def restoreLoop : List InstanceDir → RegMap → Except RestorePanic RegMap
  | [], acc => .ok acc
  | d :: rest, acc =>
    match restoreOne d with
    | .error e => .error e
    | .ok inst => restoreLoop rest (insertMap acc inst.uuid inst)

/-- Model of `restore_instances`: list the immediate subdirectories, keep
only those whose `.lodestone_config` marker is a file, then run the
restore loop starting from an empty map. -/
def restore_instances (dirs : List InstanceDir) : Except RestorePanic RegMap :=
  restoreLoop (dirs.filter (fun d => d.has_marker)) []

/-! ### The startup portion of `run()` -/

/-- A user entry as the users manager exposes it: `run` only reads the
`is_owner` flag (`users_manager.as_ref().iter().any(|(_, user)| user.is_owner)`). -/
structure User where
  is_owner : Bool
  deriving Repr, DecidableEq

/-- The 62 characters of the `rand` crate's `Alphanumeric` distribution. -/
def alphanumerics : List Char :=
  "ABCDEFGHIJKLMNOPQRSTUVWXYZabcdefghijklmnopqrstuvwxyz0123456789".data

/-- Modelled from the spec: `util::rand_alphanumeric` is not under `src/`;
it samples a fresh alphanumeric string of the requested length. The
randomness source is an oracle `rng` choosing one of the 62 alphanumeric
characters per position. -/
def rand_alphanumeric (rng : Nat → Fin 62) (n : Nat) : String :=
  ⟨(List.range n).map (fun i => alphanumerics.getD (rng i) 'A')⟩

/-- The first-time-setup-key computation of `run` (lib.rs:232-239): when no
loaded user has the owner flag, generate a fresh 16-character alphanumeric
key, otherwise `None`. -/
def firstTimeSetupKey (users : List (String × User)) (rng : Nat → Fin 62) :
    Option String :=
  if !(users.any (fun p => p.2.is_owner)) then some (rand_alphanumeric rng 16)
  else none

/-- Observable steps of the startup sequence of `run`, in the order the
source performs them. `startCall u` is `instance.start(CausedBy::System)`
for the instance keyed `u`; `logStartError u` is the `error!` branch of
that call; `seedPortManager ps` is `PortManager::new(allocated_ports)`;
`constructAppState` is the `AppState { .. }` literal after which the state
is shared; `spawnTasks` covers defining the loops and `tokio::spawn`. -/
inductive StartupStep where
  | computeSetupKey
  | restoreDone
  | startCall (u : InstanceUuid)
  | logStartError (u : InstanceUuid)
  | seedPortManager (ports : List Nat)
  | constructAppState
  | spawnTasks
  deriving Repr, DecidableEq

/-- The auto-start loop of `run` (lib.rs:242-253): for every registry entry
in iteration order, if `auto_start()` holds, call `start(CausedBy::System)`;
a failed start is logged (`error!`) and the loop moves on. The registry
itself is not modified (the loop only takes `iter_mut` references). -/
def autoStartTrace (reg : RegMap) : List StartupStep :=
  reg.flatMap (fun e =>
    if e.2.auto_start then
      .startCall e.1 :: (if e.2.start_ok then [] else [.logStartError e.1])
    else [])

/-- Insert into a list-modelled `HashSet` (`HashSet::insert`). -/
def insertSet (s : List Nat) (p : Nat) : List Nat :=
  if p ∈ s then s else s ++ [p]

/-- The `allocated_ports` accumulation of `run` (lib.rs:254-257): for every
entry of the restored registry — running or not — insert
`instance.port().await` into the set. -/
def allocatedPorts (reg : RegMap) : List Nat :=
  reg.foldl (fun s e => insertSet s e.2.port) []

/-- The port manager, holding the set of claimed ports
(`PortManager::new(allocated_ports)`). -/
structure PortManager where
  claimed : List Nat
  deriving Repr, DecidableEq

/-- The fields of `AppState` the core claims are about. -/
structure AppState where
  instances : RegMap
  port_manager : PortManager
  first_time_setup_key : Option String
  deriving Repr, DecidableEq

/-- Result of the startup portion of `run`: the ordered step trace and the
constructed shared state. -/
structure RunResult where
  trace : List StartupStep
  appState : AppState
  deriving Repr, DecidableEq

/-- The startup sequence of `run` (lib.rs:232-283), in source order:
compute the first-time setup key, restore the instances (a restore panic
aborts startup), run the auto-start loop, accumulate `allocated_ports`
over every restored instance, seed the `PortManager`, construct `AppState`,
and only then define and spawn the background tasks. -/
def runStartup (users : List (String × User)) (rng : Nat → Fin 62)
    (dirs : List InstanceDir) : Except RestorePanic RunResult :=
  let key := firstTimeSetupKey users rng
  match restore_instances dirs with
  | .error e => .error e
  | .ok instances =>
    let ports := allocatedPorts instances
    .ok { trace := [.computeSetupKey, .restoreDone] ++ autoStartTrace instances
            ++ [.seedPortManager ports, .constructAppState, .spawnTasks]
          appState := { instances := instances
                        port_manager := { claimed := ports }
                        first_time_setup_key := key } }

/-! ### The event-history buffering loop (`event_buffer_task`) -/

/-- Shallow model of an `Event` as the buffering loop observes it:
`is_console` is `event.is_event_console_message()`, `instance_uuid` is
`event.get_instance_uuid()` (the `events` module is outside the core
source; these are exactly the two accessors the loop calls), and `payload`
keeps distinct events distinguishable. -/
structure Event where
  is_console : Bool
  instance_uuid : Option InstanceUuid
  payload : Nat
  deriving Repr, DecidableEq

/-- One received item: `Ok(event)`, `Err(RecvError::Lagged(n))`, or
`Err(RecvError::Closed)`. -/
inductive RecvResult where
  | ok (e : Event)
  | lagged (n : Nat)
  | closed
  deriving Repr, DecidableEq

/-- The two history buffers the loop writes: the global `events_buffer`
(capacity 512) and the per-instance `console_out_buffer` map (each buffer
capacity 1024, created on first use). -/
structure BufState where
  events_buffer : RingBuf Event
  console_out_buffer : List (InstanceUuid × RingBuf Event)
  deriving Repr, DecidableEq

/-- Push into the console buffer of an instance:
`.entry(uuid).or_insert_with(|| AllocRingBuffer::with_capacity(1024)).push(event)`. -/
def pushConsole (m : List (InstanceUuid × RingBuf Event)) (u : InstanceUuid)
    (e : Event) : List (InstanceUuid × RingBuf Event) :=
  match lookupMap m u with
  | some b => insertMap m u (b.push e)
  | none => insertMap m u ((RingBuf.withCapacity Event 1024).push e)

/-- Outcome of one iteration of the buffering loop: keep looping with the
new state, or leave the loop (the `break` on a closed bus). -/
inductive StepRes where
  | next (s : BufState)
  | stop (s : BufState)
  deriving Repr, DecidableEq

/-- Panic points of the buffering loop: the
`event.get_instance_uuid().unwrap()` on a console event with no instance. -/
inductive BufPanic where
  | unwrapNoInstance
  deriving Repr, DecidableEq

/-- One iteration of `event_buffer_task`'s loop body (lib.rs:290-315):
a lag error logs a warning and continues with the buffers untouched; a
closed bus logs and breaks; an event is routed to the per-instance console
buffer when it is a console message (unwrapping its instance uuid),
otherwise to the global events buffer. -/
def bufStep (s : BufState) (r : RecvResult) : Except BufPanic StepRes :=
  match r with
  | .lagged _ => .ok (.next s)
  | .closed => .ok (.stop s)
  | .ok e =>
    if e.is_console then
      match e.instance_uuid with
      | none => .error .unwrapNoInstance
      | some u =>
        .ok (.next { s with console_out_buffer := pushConsole s.console_out_buffer u e })
    else .ok (.next { s with events_buffer := s.events_buffer.push e })

/-- The buffering loop run over a finite prefix of received items: `true`
in the result means the loop terminated by itself via the closed-bus
`break` (further items are never consumed). -/
def event_buffer_task (s : BufState) : List RecvResult → Except BufPanic (BufState × Bool)
  | [] => .ok (s, false)
  | r :: rest =>
    match bufStep s r with
    | .error e => .error e
    | .ok (.next s2) => event_buffer_task s2 rest
    | .ok (.stop s2) => .ok (s2, true)

/-! ### The periodic monitor loop (`monitor_report_task`) -/

/-- Observable actions of one sweep of the monitor loop. Lock actions are
explicit so lock-holding across awaited calls is provable from the trace:
`lockRegistry`/`unlockRegistry` delimit the lifetime of the
`instances.lock().await` guard, `monitorCall u` is `instance.monitor().await`,
`lockMonitorBuf`/`pushReport`/`unlockMonitorBuf` are the
`monitor_buffer.lock().await.entry(..).push(report)` statement, and `tick`
is `interval.tick().await`. -/
inductive MonAction where
  | lockRegistry
  | monitorCall (u : InstanceUuid)
  | lockMonitorBuf
  | pushReport (u : InstanceUuid)
  | unlockMonitorBuf
  | unlockRegistry
  | tick
  deriving Repr, DecidableEq

/-- One iteration of the monitor loop (lib.rs:326-337). The guard returned
by `instances.lock().await` in the head of the `for` loop is a temporary
whose lifetime extends to the end of the whole `for` statement, so the
registry stays locked across every `monitor().await` call and across the
monitor-buffer lock; it is released only when the loop finishes, before
`interval.tick().await`. -/
def monitorIteration (reg : RegMap) : List MonAction :=
  [.lockRegistry]
    ++ reg.flatMap (fun e =>
        [.monitorCall e.1, .lockMonitorBuf, .pushReport e.1, .unlockMonitorBuf])
    ++ [.unlockRegistry, .tick]

/-- Decides whether a trace performs some `monitorCall` while the registry
lock is held (scanning left to right, tracking the lock state). -/
def monitorWhileRegistryLocked : Bool → List MonAction → Bool
  | _, [] => false
  | _, .lockRegistry :: rest => monitorWhileRegistryLocked true rest
  | _, .unlockRegistry :: rest => monitorWhileRegistryLocked false rest
  | held, .monitorCall _ :: rest => held || monitorWhileRegistryLocked held rest
  | held, _ :: rest => monitorWhileRegistryLocked held rest

/-! ### The spawned supervisor task: race of loops, then cleanup -/

/-- The five race arms of the `select!` in the spawned task
(lib.rs:381-388). -/
inductive RaceArm where
  | dbWrite
  | eventBuffer
  | monitorReport
  | httpServer
  | ctrlC
  deriving Repr, DecidableEq

/-- Observable actions of the spawned task after whichever arm finishes
first: `raceWon a` is the `select!` resolving with arm `a` (cancelling the
others), `cleanupBegin` is entering the cleanup block, and
`stopCall u ok` is `instance.stop(CausedBy::System)` on the entry keyed
`u`, with its (discarded, `let _ =`) success recorded as `ok`. -/
inductive TaskAction where
  | raceWon (a : RaceArm)
  | cleanupBegin
  | stopCall (u : InstanceUuid) (ok : Bool)
  deriving Repr, DecidableEq

/-- The cleanup block (lib.rs:389-393): lock the registry once and, for
every entry, call `stop(CausedBy::System)`, discarding the result, so a
failing stop never interrupts the sweep. -/
def cleanupTrace (reg : RegMap) : List TaskAction :=
  reg.map (fun e => .stopCall e.1 e.2.stop_ok)

/-- The body of the spawned task (lib.rs:341-394) as a trace: whichever
arm of the race finishes first, the single cleanup block then runs and
stops every registry entry. -/
def spawnedTask (arm : RaceArm) (reg : RegMap) : List TaskAction :=
  [.raceWon arm, .cleanupBegin] ++ cleanupTrace reg

/-- The instances a task trace calls `stop` on, in order. -/
def stopCalls (t : List TaskAction) : List InstanceUuid :=
  t.filterMap (fun a =>
    match a with
    | .stopCall u _ => some u
    | _ => none)

/-! ### Validity predicates used to state the restore claims -/

/-- A marker file that restores successfully as a Minecraft instance: it
parses as JSON, its `game_type` is a string naming `minecraft` (case
insensitively), its `name` is a string, and the typed deserialization
succeeds. -/
def validMinecraftDir (d : InstanceDir) : Bool :=
  match d.parsed with
  | none => false
  | some cfg =>
    match cfg.game_type with
    | none => false
    | some gt =>
      (asciiLower gt == "minecraft") && cfg.name.isSome && cfg.typed_deser_ok

/-- A marker file exhibiting one of the failures named by the spec: it
fails to parse as JSON, or its `game_type` discriminator is missing, or it
names an unsupported game type. -/
def badMarker (d : InstanceDir) : Bool :=
  match d.parsed with
  | none => true
  | some cfg =>
    match cfg.game_type with
    | none => true
    | some gt => !(asciiLower gt == "minecraft")

/-- The instance uuid recorded in a directory's marker file, when it parses. -/
def dirUuid (d : InstanceDir) : Option InstanceUuid :=
  d.parsed.map ConfigJson.uuid

/-- Uuids of the marker files of a directory list, in order. -/
def uuidsOf (l : List InstanceDir) : List InstanceUuid :=
  l.filterMap dirUuid

/-- Uuids of the marker-carrying subdirectories, in order: the keys the
restore pass is expected to produce. -/
def markerUuids (dirs : List InstanceDir) : List InstanceUuid :=
  uuidsOf (dirs.filter (fun d => d.has_marker))

/-! ### Association-list lemmas -/

theorem lookupMap_insertMap_self {β : Type} (m : List (InstanceUuid × β))
    (k : InstanceUuid) (v : β) : lookupMap (insertMap m k v) k = some v := by
  induction m with
  | nil => simp [insertMap, lookupMap]
  | cons e rest ih =>
    by_cases h : e.1 = k
    · simp [insertMap, h, lookupMap]
    · simp [insertMap, h, lookupMap, ih]

theorem lookupMap_insertMap_ne {β : Type} (m : List (InstanceUuid × β))
    (k k2 : InstanceUuid) (v : β) (h : k2 ≠ k) :
    lookupMap (insertMap m k v) k2 = lookupMap m k2 := by
  have hk : ¬(k = k2) := fun h2 => h h2.symm
  induction m with
  | nil => simp [insertMap, lookupMap, hk]
  | cons e rest ih =>
    by_cases he : e.1 = k
    · subst he
      simp [insertMap, lookupMap, hk]
    · simp [insertMap, lookupMap, he, ih]

theorem keysOf_insertMap_not_mem {β : Type} (m : List (InstanceUuid × β))
    (k : InstanceUuid) (v : β) (h : k ∉ keysOf m) :
    keysOf (insertMap m k v) = keysOf m ++ [k] := by
  induction m with
  | nil => simp [insertMap, keysOf]
  | cons e rest ih =>
    simp only [keysOf, List.map_cons, List.mem_cons, not_or] at h
    have hek : ¬(e.1 = k) := fun h2 => h.1 h2.symm
    have ih2 := ih (by simpa [keysOf] using h.2)
    simp only [keysOf] at ih2
    simp [insertMap, hek, keysOf, ih2]

/-! ### Restore lemmas -/

theorem restoreOne_of_valid (d : InstanceDir) (h : validMinecraftDir d = true) :
    ∃ cfg, d.parsed = some cfg ∧ restoreOne d = .ok (MinecraftInstance.restore cfg) := by
  match hp : d.parsed with
  | none => simp [validMinecraftDir, hp] at h
  | some cfg =>
    refine ⟨cfg, rfl, ?_⟩
    match hg : cfg.game_type with
    | none => simp [validMinecraftDir, hp, hg] at h
    | some gt =>
      simp only [validMinecraftDir, hp, hg, Bool.and_eq_true, beq_iff_eq,
        Option.isSome_iff_exists] at h
      obtain ⟨⟨hgt, nm, hnm⟩, htd⟩ := h
      simp [restoreOne, hp, hg, hgt, hnm, htd]

theorem restoreOne_error_of_bad (d : InstanceDir) (h : badMarker d = true) :
    ∃ e, restoreOne d = .error e := by
  match hp : d.parsed with
  | none => exact ⟨.jsonParse, by simp [restoreOne, hp]⟩
  | some cfg =>
    match hg : cfg.game_type with
    | none => exact ⟨.gameTypeMissing, by simp [restoreOne, hp, hg]⟩
    | some gt =>
      simp only [badMarker, hp, hg, Bool.not_eq_true', beq_eq_false_iff_ne, ne_eq] at h
      exact ⟨.unimplementedGameType, by simp [restoreOne, hp, hg, h]⟩

theorem restoreLoop_ok (l : List InstanceDir) : ∀ acc : RegMap,
    (∀ d ∈ l, validMinecraftDir d = true) →
    (∀ u ∈ uuidsOf l, u ∉ keysOf acc) →
    (uuidsOf l).Nodup →
    ∃ m, restoreLoop l acc = .ok m ∧
      keysOf m = keysOf acc ++ uuidsOf l ∧
      (∀ k, k ∉ uuidsOf l → lookupMap m k = lookupMap acc k) ∧
      (∀ d ∈ l, ∀ cfg, d.parsed = some cfg →
        lookupMap m cfg.uuid = some (MinecraftInstance.restore cfg)) := by
  induction l with
  | nil =>
    intro acc _ _ _
    exact ⟨acc, rfl, by simp [uuidsOf], fun k _ => rfl, by simp⟩
  | cons d rest ih =>
    intro acc hvalid hfresh hnodup
    obtain ⟨cfg, hp, hro⟩ := restoreOne_of_valid d (hvalid d (by simp))
    have huu : uuidsOf (d :: rest) = cfg.uuid :: uuidsOf rest := by
      simp [uuidsOf, dirUuid, hp]
    rw [huu] at hfresh hnodup
    have hcfg_acc : cfg.uuid ∉ keysOf acc := hfresh cfg.uuid (by simp)
    have hnd := List.nodup_cons.mp hnodup
    have hkeys2 : keysOf (insertMap acc cfg.uuid (MinecraftInstance.restore cfg)) =
        keysOf acc ++ [cfg.uuid] :=
      keysOf_insertMap_not_mem acc cfg.uuid _ hcfg_acc
    have hfresh2 : ∀ u ∈ uuidsOf rest,
        u ∉ keysOf (insertMap acc cfg.uuid (MinecraftInstance.restore cfg)) := by
      intro u hu
      rw [hkeys2]
      simp only [List.mem_append, List.mem_singleton, not_or]
      exact ⟨hfresh u (by simp [hu]), fun h2 => hnd.1 (h2 ▸ hu)⟩
    obtain ⟨m, hloop, hkeys, hpres, hfound⟩ :=
      ih (insertMap acc cfg.uuid (MinecraftInstance.restore cfg))
        (fun d2 hd2 => hvalid d2 (by simp [hd2])) hfresh2 hnd.2
    refine ⟨m, ?_, ?_, ?_, ?_⟩
    · simpa [restoreLoop, hro, MinecraftInstance.restore] using hloop
    · rw [hkeys, hkeys2, huu]
      simp
    · intro k hk
      rw [huu] at hk
      simp only [List.mem_cons, not_or] at hk
      rw [hpres k hk.2, lookupMap_insertMap_ne acc _ _ _ hk.1]
    · intro d2 hd2 cfg2 hp2
      rcases List.mem_cons.mp hd2 with hd2 | hd2
      · subst hd2
        rw [hp] at hp2
        obtain rfl : cfg = cfg2 := by injection hp2
        rw [hpres cfg.uuid hnd.1, lookupMap_insertMap_self]
      · exact hfound d2 hd2 cfg2 hp2

theorem restoreLoop_bad_truncates (bad : InstanceDir) (hbad : badMarker bad = true)
    (l1 : List InstanceDir) : ∀ (l2 : List InstanceDir) (acc : RegMap),
    restoreLoop (l1 ++ bad :: l2) acc = restoreLoop (l1 ++ [bad]) acc ∧
    ∃ e, restoreLoop (l1 ++ bad :: l2) acc = .error e := by
  induction l1 with
  | nil =>
    intro l2 acc
    obtain ⟨e, he⟩ := restoreOne_error_of_bad bad hbad
    exact ⟨by simp [restoreLoop, he], e, by simp [restoreLoop, he]⟩
  | cons d l1x ih =>
    intro l2 acc
    match hro : restoreOne d with
    | .error e => exact ⟨by simp [restoreLoop, hro], e, by simp [restoreLoop, hro]⟩
    | .ok inst =>
      obtain ⟨h1, e, h2⟩ := ih l2 (insertMap acc inst.uuid inst)
      exact ⟨by simpa [restoreLoop, hro] using h1, e, by simpa [restoreLoop, hro] using h2⟩

/-! ### Claim C1 -/

/-- C1: after the restore pass, the returned instance map has exactly the
marker-carrying immediate subdirectories as entries — its key list is
precisely the (duplicate-free) list of those directories' instance uuids,
in directory order, and each such uuid maps to the instance restored from
that directory's config — while every subdirectory lacking the
`.lodestone_config` marker is skipped and contributes no entry. -/
theorem restore_registry_matches_marker_dirs (dirs : List InstanceDir)
    (hvalid : ∀ d ∈ dirs, d.has_marker = true → validMinecraftDir d = true)
    (hnodup : (markerUuids dirs).Nodup) :
    ∃ m, restore_instances dirs = .ok m ∧
      keysOf m = markerUuids dirs ∧
      (∀ d ∈ dirs, d.has_marker = true → ∀ cfg, d.parsed = some cfg →
        lookupMap m cfg.uuid = some (MinecraftInstance.restore cfg)) ∧
      (keysOf m).Nodup := by
  obtain ⟨m, hloop, hkeys, _, hfound⟩ :=
    restoreLoop_ok (dirs.filter (fun d => d.has_marker)) []
      (fun d hd => hvalid d (List.mem_filter.mp hd).1
        (by simpa using (List.mem_filter.mp hd).2))
      (by simp [keysOf]) hnodup
  have hkeys2 : keysOf m = markerUuids dirs := by simpa [markerUuids, keysOf] using hkeys
  refine ⟨m, hloop, hkeys2, ?_, hkeys2 ▸ hnodup⟩
  intro d hd hm cfg hp
  exact hfound d (List.mem_filter.mpr ⟨hd, by simp [hm]⟩) cfg hp

/-- Sample directories for the C1 witness: two valid Minecraft marker
directories and one markerless directory in between. -/
def c1SampleDirs : List InstanceDir :=
  [ { has_marker := true
      parsed := some { game_type := some "Minecraft", name := some "alpha"
                       typed_deser_ok := true, uuid := "uuid-a", port := 25565
                       auto_start := true, start_ok := true, stop_ok := true } }
  , { has_marker := false, parsed := none }
  , { has_marker := true
      parsed := some { game_type := some "minecraft", name := some "beta"
                       typed_deser_ok := true, uuid := "uuid-b", port := 25566
                       auto_start := false, start_ok := true, stop_ok := true } } ]

/-- Concrete instantiation of C1 on `c1SampleDirs`. -/
theorem restore_registry_matches_marker_dirs_witness :
    ∃ m, restore_instances c1SampleDirs = .ok m ∧
      keysOf m = markerUuids c1SampleDirs ∧
      (∀ d ∈ c1SampleDirs, d.has_marker = true → ∀ cfg, d.parsed = some cfg →
        lookupMap m cfg.uuid = some (MinecraftInstance.restore cfg)) ∧
      (keysOf m).Nodup :=
  restore_registry_matches_marker_dirs c1SampleDirs (by decide) (by decide)

/-! ### Claim C2 -/

/-- C2: if any marker-carrying directory has a marker file that fails to
parse as JSON, or whose `game_type` discriminator is missing or names an
unsupported game type, the whole restore pass aborts with a fatal error
(a panic, modelled as `Except.error`), and no directory after the bad one
is restored: the pass's outcome is identical to running it with every
later directory removed. -/
theorem restore_aborts_on_bad_marker (pre post : List InstanceDir)
    (bad : InstanceDir) (hmark : bad.has_marker = true)
    (hbad : badMarker bad = true) :
    (∃ e, restore_instances (pre ++ bad :: post) = .error e) ∧
    restore_instances (pre ++ bad :: post) = restore_instances (pre ++ [bad]) := by
  have hsplit : (pre ++ bad :: post).filter (fun d => d.has_marker) =
      pre.filter (fun d => d.has_marker) ++ bad ::
        post.filter (fun d => d.has_marker) := by
    simp [List.filter_append, hmark]
  have hsplit2 : (pre ++ [bad]).filter (fun d => d.has_marker) =
      pre.filter (fun d => d.has_marker) ++ [bad] := by
    simp [List.filter_append, hmark]
  obtain ⟨h1, e, h2⟩ :=
    restoreLoop_bad_truncates bad hbad (pre.filter (fun d => d.has_marker))
      (post.filter (fun d => d.has_marker)) []
  refine ⟨⟨e, ?_⟩, ?_⟩
  · rw [restore_instances, hsplit]
    exact h2
  · rw [restore_instances, restore_instances, hsplit, hsplit2]
    exact h1

/-- Concrete instantiation of C2: a marker file whose `game_type` names an
unsupported game aborts the pass, and a valid directory after it is never
restored. -/
theorem restore_aborts_on_bad_marker_witness :
    (∃ e, restore_instances ((c1SampleDirs.take 1) ++
        { has_marker := true
          parsed := some { game_type := some "factorio", name := some "gamma"
                           typed_deser_ok := true, uuid := "uuid-c", port := 100
                           auto_start := false, start_ok := true, stop_ok := true } }
          :: (c1SampleDirs.drop 2)) = .error e) ∧
    restore_instances ((c1SampleDirs.take 1) ++
        { has_marker := true
          parsed := some { game_type := some "factorio", name := some "gamma"
                           typed_deser_ok := true, uuid := "uuid-c", port := 100
                           auto_start := false, start_ok := true, stop_ok := true } }
          :: (c1SampleDirs.drop 2)) =
      restore_instances ((c1SampleDirs.take 1) ++
        [ { has_marker := true
            parsed := some { game_type := some "factorio", name := some "gamma"
                             typed_deser_ok := true, uuid := "uuid-c", port := 100
                             auto_start := false, start_ok := true, stop_ok := true } } ]) :=
  restore_aborts_on_bad_marker (c1SampleDirs.take 1) (c1SampleDirs.drop 2) _
    (by decide) (by decide)

/-! ### Startup-trace lemmas -/

/-- Extracts the instance of a `start(CausedBy::System)` call, if the step
is one. -/
def startCallOf : StartupStep → Option InstanceUuid
  | .startCall u => some u
  | _ => none

theorem autoStartTrace_startCalls (reg : RegMap) :
    (autoStartTrace reg).filterMap startCallOf =
      (reg.filter (fun e => e.2.auto_start)).map Prod.fst := by
  induction reg with
  | nil => rfl
  | cons e rest ih =>
    simp only [autoStartTrace] at ih ⊢
    rw [List.flatMap_cons]
    by_cases ha : e.2.auto_start
    · by_cases hs : e.2.start_ok <;>
        simp [ha, hs, startCallOf, ih, List.filter_cons, List.filterMap_append]
    · simp [ha, ih, List.filter_cons]

theorem autoStartTrace_logged (reg : RegMap) (p : InstanceUuid × GameInstance)
    (hp : p ∈ reg) (ha : p.2.auto_start = true) (hs : p.2.start_ok = false) :
    StartupStep.logStartError p.1 ∈ autoStartTrace reg := by
  refine List.mem_flatMap.mpr ⟨p, hp, ?_⟩
  simp [ha, hs]

theorem autoStartTrace_shape (reg : RegMap) (a : StartupStep)
    (ha : a ∈ autoStartTrace reg) :
    (∃ u, a = .startCall u) ∨ (∃ u, a = .logStartError u) := by
  obtain ⟨e, _, hmem⟩ := List.mem_flatMap.mp ha
  by_cases h1 : e.2.auto_start
  · by_cases h2 : e.2.start_ok
    · simp [h1, h2] at hmem
      exact Or.inl ⟨e.1, hmem⟩
    · simp [h1, h2] at hmem
      rcases hmem with rfl | rfl
      · exact Or.inl ⟨e.1, rfl⟩
      · exact Or.inr ⟨e.1, rfl⟩
  · simp [h1] at hmem

theorem mem_insertSet (s : List Nat) (p q : Nat) :
    q ∈ insertSet s p ↔ q ∈ s ∨ q = p := by
  by_cases h : p ∈ s
  · refine ⟨fun h2 => Or.inl (by simpa [insertSet, h] using h2),
      fun h2 => ?_⟩
    rcases h2 with h2 | rfl
    · simp [insertSet, h, h2]
    · simp [insertSet, h]
  · simp [insertSet, h]

theorem mem_foldl_insertSet (reg : RegMap) : ∀ (s : List Nat) (p : Nat),
    p ∈ reg.foldl (fun s e => insertSet s e.2.port) s ↔
      p ∈ s ∨ ∃ e ∈ reg, e.2.port = p := by
  induction reg with
  | nil => simp
  | cons x rest ih =>
    intro s p
    rw [List.foldl_cons, ih, mem_insertSet]
    constructor
    · rintro ((h | h) | ⟨e, he, hp⟩)
      · exact Or.inl h
      · exact Or.inr ⟨x, by simp, h.symm⟩
      · exact Or.inr ⟨e, by simp [he], hp⟩
    · rintro (h | ⟨e, he, hp⟩)
      · exact Or.inl (Or.inl h)
      · rcases List.mem_cons.mp he with rfl | he
        · exact Or.inl (Or.inr hp.symm)
        · exact Or.inr ⟨e, he, hp⟩

theorem mem_allocatedPorts (reg : RegMap) (p : Nat) :
    p ∈ allocatedPorts reg ↔ ∃ e ∈ reg, e.2.port = p := by
  rw [allocatedPorts, mem_foldl_insertSet]
  simp

/-! ### Claim C3 -/

/-- C3: once the instances are restored, `start(CausedBy::System)` is
invoked sequentially for exactly the registry entries whose `auto_start()`
holds (in registry order, independently of whether each start succeeds,
so one failure never suppresses a later attempt); a failed start is
logged; and the registry handed to `AppState` is exactly the restored map
— no entry is removed. -/
theorem auto_start_exactly_flagged (users : List (String × User))
    (rng : Nat → Fin 62) (dirs : List InstanceDir) (r : RunResult)
    (h : runStartup users rng dirs = .ok r) :
    r.trace.filterMap startCallOf =
      (r.appState.instances.filter (fun e => e.2.auto_start)).map Prod.fst ∧
    restore_instances dirs = .ok r.appState.instances ∧
    (∀ p ∈ r.appState.instances, p.2.auto_start = true → p.2.start_ok = false →
      StartupStep.logStartError p.1 ∈ r.trace) := by
  match hres : restore_instances dirs with
  | .error e => rw [runStartup, hres] at h; exact absurd h (by simp)
  | .ok reg =>
    rw [runStartup, hres] at h
    obtain rfl : _ = r := by injection h
    refine ⟨?_, by simp [hres], ?_⟩
    · simp [List.filterMap_append, startCallOf, autoStartTrace_startCalls]
    · intro p hp ha hs
      simp [List.mem_append, autoStartTrace_logged reg p hp ha hs]

/-- Sample startup inputs for the run-level witnesses: no users (so no
owner), a constant randomness oracle, and the C1 sample directories. -/
def sampleRng : Nat → Fin 62 := fun _ => ⟨0, by omega⟩

/-- The startup result on the sample inputs, written out. -/
def sampleRunResult : RunResult :=
  { trace := [.computeSetupKey, .restoreDone, .startCall "uuid-a",
      .seedPortManager [25565, 25566], .constructAppState, .spawnTasks]
    appState :=
      { instances :=
          [ ("uuid-a", { uuid := "uuid-a", name := "alpha", port := 25565
                         auto_start := true, start_ok := true, stop_ok := true })
          , ("uuid-b", { uuid := "uuid-b", name := "beta", port := 25566
                         auto_start := false, start_ok := true, stop_ok := true }) ]
        port_manager := { claimed := [25565, 25566] }
        first_time_setup_key := some "AAAAAAAAAAAAAAAA" } }

/-- Concrete instantiation of C3 on the sample startup. -/
theorem auto_start_exactly_flagged_witness :
    sampleRunResult.trace.filterMap startCallOf =
      (sampleRunResult.appState.instances.filter
        (fun e => e.2.auto_start)).map Prod.fst ∧
    restore_instances c1SampleDirs = .ok sampleRunResult.appState.instances ∧
    (∀ p ∈ sampleRunResult.appState.instances,
      p.2.auto_start = true → p.2.start_ok = false →
      StartupStep.logStartError p.1 ∈ sampleRunResult.trace) :=
  auto_start_exactly_flagged [] sampleRng c1SampleDirs sampleRunResult rfl

/-! ### Claim C4 -/

/-- C4: the `PortManager` is seeded with exactly the configured ports of
every restored instance — a port is claimed iff some registry entry (of
any run state) has it — and in the startup trace the seeding strictly
precedes the construction of `AppState` (after which the state first
becomes available to any caller), construction never having happened
earlier. -/
theorem port_manager_seeded_before_appstate (users : List (String × User))
    (rng : Nat → Fin 62) (dirs : List InstanceDir) (r : RunResult)
    (h : runStartup users rng dirs = .ok r) :
    (∀ p, p ∈ r.appState.port_manager.claimed ↔
      ∃ e ∈ r.appState.instances, e.2.port = p) ∧
    ∃ pre, r.trace = pre ++ [.seedPortManager r.appState.port_manager.claimed,
        .constructAppState, .spawnTasks] ∧
      StartupStep.constructAppState ∉ pre := by
  match hres : restore_instances dirs with
  | .error e => rw [runStartup, hres] at h; exact absurd h (by simp)
  | .ok reg =>
    rw [runStartup, hres] at h
    obtain rfl : _ = r := by injection h
    refine ⟨fun p => by simpa using mem_allocatedPorts reg p,
      .computeSetupKey :: .restoreDone :: autoStartTrace reg, by simp, ?_⟩
    intro hmem
    rcases List.mem_cons.mp hmem with h1 | h1
    · exact absurd h1 (by simp)
    rcases List.mem_cons.mp h1 with h2 | h2
    · exact absurd h2 (by simp)
    rcases autoStartTrace_shape reg _ h2 with ⟨u, hu⟩ | ⟨u, hu⟩ <;> simp at hu

/-- Concrete instantiation of C4 on the sample startup. -/
theorem port_manager_seeded_before_appstate_witness :
    (∀ p, p ∈ sampleRunResult.appState.port_manager.claimed ↔
      ∃ e ∈ sampleRunResult.appState.instances, e.2.port = p) ∧
    ∃ pre, sampleRunResult.trace =
        pre ++ [.seedPortManager sampleRunResult.appState.port_manager.claimed,
          .constructAppState, .spawnTasks] ∧
      StartupStep.constructAppState ∉ pre :=
  port_manager_seeded_before_appstate [] sampleRng c1SampleDirs sampleRunResult rfl

/-! ### Claim C9 -/

theorem alphanumerics_isAlphanum (k : Fin 62) :
    (alphanumerics.getD (k : Nat) 'A').isAlphanum = true := by
  revert k
  decide

/-- C9: the first-time setup key held by `AppState` is `Some` exactly when
no loaded user carries the owner flag, and any generated key is a
16-character alphanumeric string; `AppState` stores precisely the value
computed once at startup. -/
theorem first_time_setup_key_spec (users : List (String × User))
    (rng : Nat → Fin 62) (dirs : List InstanceDir) (r : RunResult)
    (h : runStartup users rng dirs = .ok r) :
    r.appState.first_time_setup_key = firstTimeSetupKey users rng ∧
    ((∃ s, r.appState.first_time_setup_key = some s) ↔
      ∀ p ∈ users, p.2.is_owner = false) ∧
    (∀ s, r.appState.first_time_setup_key = some s →
      s.length = 16 ∧ s.data.all Char.isAlphanum = true) := by
  have hkey : r.appState.first_time_setup_key = firstTimeSetupKey users rng := by
    match hres : restore_instances dirs with
    | .error e => rw [runStartup, hres] at h; exact absurd h (by simp)
    | .ok reg =>
      rw [runStartup, hres] at h
      obtain rfl : _ = r := by injection h
      rfl
  refine ⟨hkey, ?_, ?_⟩
  · rw [hkey]
    cases husers : users.any (fun p => p.2.is_owner) with
    | false =>
      have hkey2 : firstTimeSetupKey users rng = some (rand_alphanumeric rng 16) := by
        simp [firstTimeSetupKey, husers]
      rw [hkey2]
      constructor
      · intro _ p hp
        exact Bool.eq_false_iff.mpr (List.any_eq_false.mp husers p hp)
      · exact fun _ => ⟨rand_alphanumeric rng 16, rfl⟩
    | true =>
      have hkey2 : firstTimeSetupKey users rng = none := by
        simp [firstTimeSetupKey, husers]
      rw [hkey2]
      obtain ⟨p, hp, hpo⟩ := List.any_eq_true.mp husers
      constructor
      · rintro ⟨s, hs⟩
        exact absurd hs (by simp)
      · intro hall
        exact absurd (hall p hp) (by simp [hpo])
  · intro s hs
    rw [hkey] at hs
    cases husers : users.any (fun p => p.2.is_owner) with
    | true => simp [firstTimeSetupKey, husers] at hs
    | false =>
      have hkey2 : firstTimeSetupKey users rng = some (rand_alphanumeric rng 16) := by
        simp [firstTimeSetupKey, husers]
      rw [hkey2] at hs
      obtain rfl : rand_alphanumeric rng 16 = s := by injection hs
      refine ⟨by simp [rand_alphanumeric, String.length], ?_⟩
      rw [rand_alphanumeric, List.all_eq_true]
      intro c hc
      obtain ⟨i, _, rfl⟩ := List.mem_map.mp hc
      exact alphanumerics_isAlphanum (rng i)

/-- Concrete instantiation of C9 on the sample startup (no users, so no
owner and a generated key). -/
theorem first_time_setup_key_spec_witness :
    sampleRunResult.appState.first_time_setup_key =
      firstTimeSetupKey [] sampleRng ∧
    ((∃ s, sampleRunResult.appState.first_time_setup_key = some s) ↔
      ∀ p ∈ ([] : List (String × User)), p.2.is_owner = false) ∧
    (∀ s, sampleRunResult.appState.first_time_setup_key = some s →
      s.length = 16 ∧ s.data.all Char.isAlphanum = true) :=
  first_time_setup_key_spec [] sampleRng c1SampleDirs sampleRunResult rfl

/-! ### Buffer-routing lemmas -/

theorem lookupMap_pushConsole_self (m : List (InstanceUuid × RingBuf Event))
    (u : InstanceUuid) (e : Event) :
    lookupMap (pushConsole m u e) u =
      some ((match lookupMap m u with
             | some b => b
             | none => RingBuf.withCapacity Event 1024).push e) := by
  rw [pushConsole]
  match h : lookupMap m u with
  | some b => exact lookupMap_insertMap_self ..
  | none => exact lookupMap_insertMap_self ..

theorem lookupMap_pushConsole_ne (m : List (InstanceUuid × RingBuf Event))
    (u u2 : InstanceUuid) (e : Event) (h : u2 ≠ u) :
    lookupMap (pushConsole m u e) u2 = lookupMap m u2 := by
  rw [pushConsole]
  match h2 : lookupMap m u with
  | some b => exact lookupMap_insertMap_ne m u u2 _ h
  | none => exact lookupMap_insertMap_ne m u u2 _ h

/-! ### Claim C5 -/

/-- C5: for every event the buffering loop receives successfully, a console
message is pushed into the console buffer keyed by the event's instance
uuid (a fresh capacity-1024 buffer on first use), leaving the global events
buffer and every other instance's console buffer untouched; any other
event is pushed into the global events buffer, leaving the whole console
map untouched — so no event ever lands in both buffers. -/
theorem event_routed_to_one_buffer (s : BufState) (e : Event) (s2 : BufState)
    (h : bufStep s (.ok e) = .ok (.next s2)) :
    (e.is_console = true →
      ∃ u, e.instance_uuid = some u ∧
        s2.events_buffer = s.events_buffer ∧
        lookupMap s2.console_out_buffer u =
          some ((match lookupMap s.console_out_buffer u with
                 | some b => b
                 | none => RingBuf.withCapacity Event 1024).push e) ∧
        (∀ u2, u2 ≠ u →
          lookupMap s2.console_out_buffer u2 = lookupMap s.console_out_buffer u2)) ∧
    (e.is_console = false →
      s2.events_buffer = s.events_buffer.push e ∧
      s2.console_out_buffer = s.console_out_buffer) := by
  constructor
  · intro hc
    match hu : e.instance_uuid with
    | none => rw [bufStep] at h; simp [hc, hu] at h
    | some u =>
      rw [bufStep] at h
      simp only [hc, if_true, hu] at h
      obtain rfl : _ = s2 := by
        injection h with h2
        injection h2
      exact ⟨u, rfl, rfl, lookupMap_pushConsole_self ..,
        fun u2 hu2 => lookupMap_pushConsole_ne _ u u2 e hu2⟩
  · intro hc
    rw [bufStep] at h
    simp only [hc] at h
    obtain rfl : _ = s2 := by
      injection h with h2
      injection h2
    exact ⟨rfl, rfl⟩

/-- Concrete instantiation of C5: a console event lands only in its
instance's console buffer. -/
theorem event_routed_to_one_buffer_witness :
    (Event.is_console ⟨true, some "uuid-a", 7⟩ = true →
      ∃ u, Event.instance_uuid ⟨true, some "uuid-a", 7⟩ = some u ∧
        BufState.events_buffer
            ⟨RingBuf.withCapacity Event 512,
              [("uuid-a", RingBuf.mk 1024 [⟨true, some "uuid-a", 7⟩])]⟩ =
          BufState.events_buffer ⟨RingBuf.withCapacity Event 512, []⟩ ∧
        lookupMap (BufState.console_out_buffer
            ⟨RingBuf.withCapacity Event 512,
              [("uuid-a", RingBuf.mk 1024 [⟨true, some "uuid-a", 7⟩])]⟩) u =
          some ((match lookupMap (BufState.console_out_buffer
                    ⟨RingBuf.withCapacity Event 512, []⟩) u with
                 | some b => b
                 | none => RingBuf.withCapacity Event 1024).push
              ⟨true, some "uuid-a", 7⟩) ∧
        (∀ u2, u2 ≠ u →
          lookupMap (BufState.console_out_buffer
              ⟨RingBuf.withCapacity Event 512,
                [("uuid-a", RingBuf.mk 1024 [⟨true, some "uuid-a", 7⟩])]⟩) u2 =
            lookupMap (BufState.console_out_buffer
              ⟨RingBuf.withCapacity Event 512, []⟩) u2)) ∧
    (Event.is_console ⟨true, some "uuid-a", 7⟩ = false →
      BufState.events_buffer
          ⟨RingBuf.withCapacity Event 512,
            [("uuid-a", RingBuf.mk 1024 [⟨true, some "uuid-a", 7⟩])]⟩ =
        (BufState.events_buffer ⟨RingBuf.withCapacity Event 512, []⟩).push
          ⟨true, some "uuid-a", 7⟩ ∧
      BufState.console_out_buffer
          ⟨RingBuf.withCapacity Event 512,
            [("uuid-a", RingBuf.mk 1024 [⟨true, some "uuid-a", 7⟩])]⟩ =
        BufState.console_out_buffer ⟨RingBuf.withCapacity Event 512, []⟩) :=
  event_routed_to_one_buffer ⟨RingBuf.withCapacity Event 512, []⟩
    ⟨true, some "uuid-a", 7⟩
    ⟨RingBuf.withCapacity Event 512,
      [("uuid-a", RingBuf.mk 1024 [⟨true, some "uuid-a", 7⟩])]⟩ rfl

/-! ### Claim C6 -/

/-- C6: a lag error makes the loop log a warning and continue with both
buffers untouched, consumption resuming with the next received item, while
a closed bus makes the loop break — terminating normally (no panic, no
error value) without consuming anything further. -/
theorem lag_warns_closed_terminates :
    (∀ (s : BufState) (n : Nat), bufStep s (.lagged n) = .ok (.next s)) ∧
    (∀ s : BufState, bufStep s .closed = .ok (.stop s)) ∧
    (∀ (s : BufState) (n : Nat) (rest : List RecvResult),
      event_buffer_task s (.lagged n :: rest) = event_buffer_task s rest) ∧
    (∀ (s : BufState) (rest : List RecvResult),
      event_buffer_task s (.closed :: rest) = .ok (s, true)) :=
  ⟨fun _ _ => rfl, fun _ => rfl, fun _ _ _ => rfl, fun _ _ => rfl⟩

/-! ### Claim C10 -/

/-- C10: the buffering loop's `unwrap` of the console event's instance
uuid is unreachable under the precondition that every console message
carries an instance uuid; on a console event lacking one, the loop
panics. -/
theorem console_event_uuid_unwrap (s : BufState) (e : Event) :
    (e.is_console = true → e.instance_uuid.isSome = true →
      ∃ s2, bufStep s (.ok e) = .ok (.next s2)) ∧
    (e.is_console = true → e.instance_uuid = none →
      bufStep s (.ok e) = .error .unwrapNoInstance) := by
  constructor
  · intro hc hu
    obtain ⟨u, hu2⟩ := Option.isSome_iff_exists.mp hu
    exact ⟨{ s with console_out_buffer := pushConsole s.console_out_buffer u e },
      by simp [bufStep, hc, hu2]⟩
  · intro hc hu
    simp [bufStep, hc, hu]

/-- Concrete instantiation of C10: a console event carrying a uuid is
buffered, and one with no uuid panics the loop. -/
theorem console_event_uuid_unwrap_witness :
    (∃ s2, bufStep ⟨RingBuf.withCapacity Event 512, []⟩
        (.ok ⟨true, some "uuid-a", 1⟩) = .ok (.next s2)) ∧
    bufStep ⟨RingBuf.withCapacity Event 512, []⟩
        (.ok ⟨true, none, 2⟩) = .error .unwrapNoInstance :=
  ⟨(console_event_uuid_unwrap ⟨RingBuf.withCapacity Event 512, []⟩
      ⟨true, some "uuid-a", 1⟩).1 rfl rfl,
   (console_event_uuid_unwrap ⟨RingBuf.withCapacity Event 512, []⟩
      ⟨true, none, 2⟩).2 rfl rfl⟩

/-! ### Claim C7 -/

theorem stopCalls_cleanupTrace (reg : RegMap) :
    stopCalls (cleanupTrace reg) = keysOf reg := by
  induction reg with
  | nil => rfl
  | cons e rest ih =>
    simp only [stopCalls, cleanupTrace, List.map_cons, List.filterMap_cons] at ih ⊢
    rw [ih]
    rfl

/-- C7: whichever race arm finishes first, the spawned task's trace enters
the cleanup phase exactly once, and the cleanup calls
`stop(CausedBy::System)` on exactly the entries of the registry, in order
— once per entry when the registry keys are duplicate-free — with each
stop's success discarded, so a failing stop never prevents the stops after
it (the stop sequence does not depend on any `stop_ok`). -/
theorem shutdown_stops_every_instance (arm : RaceArm) (reg : RegMap)
    (hnodup : (keysOf reg).Nodup) :
    (spawnedTask arm reg).count .cleanupBegin = 1 ∧
    stopCalls (spawnedTask arm reg) = keysOf reg ∧
    (∀ u ∈ keysOf reg, (stopCalls (spawnedTask arm reg)).count u = 1) := by
  have h0 : TaskAction.cleanupBegin ∉ cleanupTrace reg := by
    intro hmem
    obtain ⟨e, _, he⟩ := List.mem_map.mp hmem
    exact absurd he (by simp)
  have hstops : stopCalls (spawnedTask arm reg) = keysOf reg := by
    have : spawnedTask arm reg = .raceWon arm :: .cleanupBegin :: cleanupTrace reg := rfl
    rw [this]
    simp only [stopCalls, List.filterMap_cons]
    exact stopCalls_cleanupTrace reg
  refine ⟨?_, hstops, ?_⟩
  · have : spawnedTask arm reg = .raceWon arm :: .cleanupBegin :: cleanupTrace reg := rfl
    rw [this, List.count_cons, List.count_cons, List.count_eq_zero.mpr h0]
    simp
  · intro u hu
    rw [hstops]
    exact List.count_eq_one_of_mem hnodup hu

/-- Sample two-instance registry for the C7 witness; its first instance
refuses to stop. -/
def c7SampleReg : RegMap :=
  [ ("uuid-a", { uuid := "uuid-a", name := "alpha", port := 25565
                 auto_start := true, start_ok := true, stop_ok := false })
  , ("uuid-b", { uuid := "uuid-b", name := "beta", port := 25566
                 auto_start := false, start_ok := true, stop_ok := true }) ]

/-- Concrete instantiation of C7: interrupt-triggered shutdown of a
two-instance registry whose first instance refuses to stop. -/
theorem shutdown_stops_every_instance_witness :
    (spawnedTask .ctrlC c7SampleReg).count .cleanupBegin = 1 ∧
    stopCalls (spawnedTask .ctrlC c7SampleReg) = keysOf c7SampleReg ∧
    (∀ u ∈ keysOf c7SampleReg,
      (stopCalls (spawnedTask .ctrlC c7SampleReg)).count u = 1) :=
  shutdown_stops_every_instance .ctrlC c7SampleReg (by decide)

/-! ### Claim C8 -/

/-- Monitor calls made while the registry lock is held (scanning left to
right, tracking the lock state). -/
def lockedMonitorCalls : Bool → List MonAction → List InstanceUuid
  | _, [] => []
  | _, .lockRegistry :: rest => lockedMonitorCalls true rest
  | _, .unlockRegistry :: rest => lockedMonitorCalls false rest
  | held, .monitorCall u :: rest =>
    (if held then [u] else []) ++ lockedMonitorCalls held rest
  | held, _ :: rest => lockedMonitorCalls held rest

/-- C8 counterexample: on a one-instance registry, an iteration of the
monitor loop performs its `monitor()` call while the registry lock is
held, refuting the claim that the lock is released before sampling. -/
theorem monitor_lock_not_held_refuted :
    monitorWhileRegistryLocked false (monitorIteration
      [("uuid-a", { uuid := "uuid-a", name := "alpha", port := 25565
                    auto_start := true, start_ok := true, stop_ok := true })]) = true := by
  decide

theorem lockedMonitorCalls_flat (reg : RegMap) (tail : List MonAction) :
    lockedMonitorCalls true
      (reg.flatMap (fun e =>
        [.monitorCall e.1, .lockMonitorBuf, .pushReport e.1, .unlockMonitorBuf]) ++ tail) =
    keysOf reg ++ lockedMonitorCalls true tail := by
  induction reg with
  | nil => rfl
  | cons e rest ih =>
    rw [List.flatMap_cons]
    simpa [lockedMonitorCalls, keysOf] using ih

/-- C8 (amended): in each iteration of the monitor loop the registry lock
IS held across the per-instance `monitor()` calls — the guard from
`instances.lock().await` lives for the whole `for` loop, every registry
entry's `monitor()` happens under it (and some call is made under the lock
whenever the registry is nonempty) — and the lock is released only at the
end of the sweep, just before the interval tick. -/
theorem monitor_lock_held_across_calls (reg : RegMap) :
    lockedMonitorCalls false (monitorIteration reg) = keysOf reg ∧
    monitorWhileRegistryLocked false (monitorIteration reg) = !reg.isEmpty ∧
    (monitorIteration reg).drop (1 + 4 * reg.length) = [.unlockRegistry, .tick] := by
  refine ⟨?_, ?_, ?_⟩
  · have h1 : monitorIteration reg =
        .lockRegistry :: (reg.flatMap (fun e =>
          [.monitorCall e.1, .lockMonitorBuf, .pushReport e.1, .unlockMonitorBuf])
            ++ [.unlockRegistry, .tick]) := rfl
    rw [h1]
    show lockedMonitorCalls true _ = _
    rw [lockedMonitorCalls_flat]
    simp [lockedMonitorCalls]
  · cases reg with
    | nil => rfl
    | cons e rest =>
      have h1 : monitorIteration (e :: rest) =
          .lockRegistry :: .monitorCall e.1 :: ([.lockMonitorBuf, .pushReport e.1,
            .unlockMonitorBuf] ++ (rest.flatMap (fun e =>
              [.monitorCall e.1, .lockMonitorBuf, .pushReport e.1, .unlockMonitorBuf])
              ++ [.unlockRegistry, .tick])) := by
        simp [monitorIteration, List.flatMap_cons]
      rw [h1]
      simp [monitorWhileRegistryLocked]
  · have hlen : (reg.flatMap (fun e =>
        [MonAction.monitorCall e.1, .lockMonitorBuf, .pushReport e.1,
          .unlockMonitorBuf])).length = 4 * reg.length := by
      induction reg with
      | nil => rfl
      | cons e rest ih =>
        rw [List.flatMap_cons]
        simp only [List.length_append, List.length_cons, List.length_nil, ih]
        omega
    have h1 : monitorIteration reg =
        ([MonAction.lockRegistry] ++ reg.flatMap (fun e =>
          [MonAction.monitorCall e.1, .lockMonitorBuf, .pushReport e.1,
            .unlockMonitorBuf]))
          ++ [.unlockRegistry, .tick] := rfl
    have h2 : ([MonAction.lockRegistry] ++ reg.flatMap (fun e =>
        [MonAction.monitorCall e.1, .lockMonitorBuf, .pushReport e.1,
          .unlockMonitorBuf])).length = 1 + 4 * reg.length := by
      simp only [List.length_append, List.length_cons, List.length_nil, hlen]
    rw [h1, ← h2, List.drop_left]

end Lodestone
